import Mathlib

/-!
Verification of the `MeshRasterizer` wrapper of
`pytorch3d/renderer/mesh/rasterizer.py`: the coordinate-transform step
(`MeshRasterizer.transform`) and the settings-resolution and dispatch step
(`MeshRasterizer.forward`).

The embedding follows the Python source.  Real-valued tensor entries are
modelled by rationals (ℚ); a padded vertex tensor of shape (N, V, 3) is a
list of N lists of `Vec3`.  The external collaborators that the wrapper
calls but that are not part of this file's source — the `Meshes`
container, the camera object's transforms, and `rasterize_meshes` — are
modelled abstractly: camera transforms are arbitrary point functions
supplied in the `Camera` bundle, and `rasterize_meshes` is a function
parameter of `forward`, so every theorem about `forward` holds for any
behaviour of the downstream rasterizer.
-/

set_option autoImplicit false

namespace Pytorch3d

/-- A 3-component point, one row of a (…, 3) coordinate tensor. -/
structure Vec3 where
  x : ℚ
  y : ℚ
  z : ℚ
deriving DecidableEq, Repr

/-- A batch of meshes: per-mesh padded vertex positions (shape (N, V, 3))
and per-mesh face index triples.  The wrapper only reads
`verts_padded()`, `len(meshes)` and calls `update_padded`. -/
structure Meshes where
  verts : List (List Vec3)
  faces : List (List (Nat × Nat × Nat))
deriving DecidableEq, Repr

/-- `len(meshes_world)`: the batch size N. -/
def Meshes.len (m : Meshes) : Nat := m.verts.length

/-- `meshes.verts_padded()`: the padded vertex tensor. -/
def Meshes.verts_padded (m : Meshes) : List (List Vec3) := m.verts

/-- `meshes.update_padded(new_verts_padded)`: a new `Meshes` with the given
vertex positions and the same face topology (per the `Meshes` API and
spec §3, the result shares the input's face topology). -/
def Meshes.update_padded (m : Meshes) (new_verts_padded : List (List Vec3)) : Meshes :=
  { verts := new_verts_padded, faces := m.faces }

/-- The result of `cameras.get_znear()`: `None`, a python float, or a
tensor of per-batch-element values.  A tensor is modelled as a head
element plus the remaining elements, so that it is non-empty and
`tensor.min()` is total, as it is on the non-empty tensors the camera
API produces. -/
inductive ZNearVal where
  | noneVal : ZNearVal
  | scalar : ℚ → ZNearVal
  | tensor : ℚ → List ℚ → ZNearVal
deriving DecidableEq, Repr

/-- `znear.min().item()` for the tensor case: minimum of all elements. -/
def ZNearVal.tensorMin (hd : ℚ) (tl : List ℚ) : ℚ := tl.foldl min hd

/-- The camera bundle.  `count` is `len(cameras)`.  The three transforms
are the abstract point maps exposed by the external camera object:
`get_world_to_view_transform().transform_points`,
`get_projection_transform().transform_points` and
`get_ndc_camera_transform().transform_points`.  `transform.compose(t)`
applies `transform` first and `t` second, so the composed
projection-then-NDC map is `ndcTransform ∘ projection`. -/
structure Camera where
  count : Nat
  worldToView : Vec3 → Vec3
  projection : Vec3 → Vec3
  ndcTransform : Vec3 → Vec3
  is_perspective : Bool
  znear : ZNearVal

/-- The error surface of the wrapper (both `raise ValueError` sites in
`MeshRasterizer.transform`). -/
inductive RasterError where
  | missingCameras : RasterError
  | wrongNumberOfCameras (n_cameras n_meshes : Nat) : RasterError
deriving DecidableEq, Repr

/-- Either a common square size or an explicit (height, width) pair;
only passed through to `rasterize_meshes`. -/
abbrev ImageSize := Sum Nat (Nat × Nat)

/-- `RasterizationSettings` with the same fields and tri-state
(`Optional`) types as the Python dataclass. -/
structure RasterizationSettings where
  image_size : ImageSize
  blur_radius : ℚ
  faces_per_pixel : Nat
  bin_size : Option Nat
  max_faces_per_bin : Option Nat
  perspective_correct : Option Bool
  clip_barycentric_coords : Option Bool
  cull_backfaces : Bool
  z_clip_value : Option ℚ
  cull_to_frustum : Bool

/-- The keyword arguments of `forward`/`transform` that the wrapper
reads.  The outer `Option` is presence of the key in `**kwargs`
(`kwargs.get(key, default)` falls back to the default only when the key
is absent). -/
structure Kwargs where
  cameras : Option (Option Camera)
  raster_settings : Option RasterizationSettings

/-- The keyword arguments with no camera and no settings override. -/
def Kwargs.empty : Kwargs := { cameras := none, raster_settings := none }

/-- A `MeshRasterizer` instance: the state set by `__init__`. -/
structure MeshRasterizer where
  cameras : Option Camera
  raster_settings : RasterizationSettings

/-- `kwargs.get("cameras", self.cameras)`. -/
def MeshRasterizer.getCameras (self : MeshRasterizer) (kw : Kwargs) : Option Camera :=
  kw.cameras.getD self.cameras

/-- `kwargs.get("raster_settings", self.raster_settings)`. -/
def MeshRasterizer.getRasterSettings (self : MeshRasterizer) (kw : Kwargs) :
    RasterizationSettings :=
  kw.raster_settings.getD self.raster_settings

/-- `verts_ndc[..., 2] = verts_view[..., 2]` at one vertex: keep the NDC
x and y, splice in the view-space z. -/
def spliceZ (ndc view : Vec3) : Vec3 :=
  { x := ndc.x, y := ndc.y, z := view.z }

/-- `MeshRasterizer.transform(meshes_world, **kwargs)`:

* fetch `cameras` from kwargs falling back to `self.cameras`; `None` is a
  `ValueError`;
* `ValueError` if `len(cameras) != 1 and len(cameras) != len(meshes_world)`;
* `verts_view = world_to_view.transform_points(verts_world)`;
* `verts_ndc = projection.compose(ndc).transform_points(verts_view)`;
* `verts_ndc[..., 2] = verts_view[..., 2]`;
* return `meshes_world.update_padded(verts_ndc)`. -/
def MeshRasterizer.transform (self : MeshRasterizer) (meshes_world : Meshes)
    (kw : Kwargs) : Except RasterError Meshes :=
  match self.getCameras kw with
  | none => .error .missingCameras
  | some cameras =>
    if cameras.count ≠ 1 ∧ cameras.count ≠ meshes_world.len then
      .error (.wrongNumberOfCameras cameras.count meshes_world.len)
    else
      let verts_world := meshes_world.verts_padded
      let verts_view := verts_world.map (List.map cameras.worldToView)
      let projection_transform := cameras.ndcTransform ∘ cameras.projection
      let verts_ndc := verts_view.map (List.map projection_transform)
      let verts_spliced := List.zipWith (List.zipWith spliceZ) verts_ndc verts_view
      .ok (meshes_world.update_padded verts_spliced)

/-- The argument record of the `rasterize_meshes(...)` call in `forward`:
the settings fields passed through unchanged plus the three resolved
tri-state values. -/
structure RasterizeArgs where
  image_size : ImageSize
  blur_radius : ℚ
  faces_per_pixel : Nat
  bin_size : Option Nat
  max_faces_per_bin : Option Nat
  clip_barycentric_coords : Bool
  perspective_correct : Bool
  cull_backfaces : Bool
  z_clip_value : Option ℚ
  cull_to_frustum : Bool

/-- Lines 175–177 of `forward`: `clip_barycentric_coords` is the explicit
setting when given, else `blur_radius > 0.0`. -/
def resolveClipBarycentricCoords (rs : RasterizationSettings) : Bool :=
  match rs.clip_barycentric_coords with
  | some b => b
  | none => decide (rs.blur_radius > 0)

/-- Lines 181–184 of `forward`: `perspective_correct` is the explicit
setting when given, else `cameras.is_perspective()`. -/
def resolvePerspectiveCorrect (rs : RasterizationSettings) (cameras : Camera) : Bool :=
  match rs.perspective_correct with
  | some b => b
  | none => cameras.is_perspective

/-- Lines 185–191 of `forward`: `z_clip` is the explicit `z_clip_value`
when given; else `znear = cameras.get_znear()`, reduced to its minimum
if it is a tensor, and
`z_clip = None if not perspective_correct or znear is None else znear / 2`. -/
def resolveZClip (rs : RasterizationSettings) (cameras : Camera)
    (perspective_correct : Bool) : Option ℚ :=
  match rs.z_clip_value with
  | some z => some z
  | none =>
    let znear : Option ℚ :=
      match cameras.znear with
      | .noneVal => none
      | .scalar q => some q
      | .tensor hd tl => some (ZNearVal.tensorMin hd tl)
    match znear with
    | none => none
    | some zn => if perspective_correct then some (zn / 2) else none

/-- Lines 172–205 of `forward`, gathered: the full argument record of the
`rasterize_meshes` call, from the effective settings and camera. -/
def resolveSettings (rs : RasterizationSettings) (cameras : Camera) : RasterizeArgs :=
  let clip_barycentric_coords := resolveClipBarycentricCoords rs
  let perspective_correct := resolvePerspectiveCorrect rs cameras
  let z_clip := resolveZClip rs cameras perspective_correct
  { image_size := rs.image_size
    blur_radius := rs.blur_radius
    faces_per_pixel := rs.faces_per_pixel
    bin_size := rs.bin_size
    max_faces_per_bin := rs.max_faces_per_bin
    clip_barycentric_coords := clip_barycentric_coords
    perspective_correct := perspective_correct
    cull_backfaces := rs.cull_backfaces
    z_clip_value := z_clip
    cull_to_frustum := rs.cull_to_frustum }

/-- The output record of mesh rasterization, a `NamedTuple` of five
tensors; the tensor payloads are opaque here (type parameter `α`). -/
structure Fragments (α : Type) where
  pix_to_face : α
  zbuf : α
  bary_coords : α
  dists : α
  back_faces : α
deriving DecidableEq, Repr

/-- `MeshRasterizer.forward(meshes_world, **kwargs)`:
`transform` first; then the effective settings are resolved
(`resolveSettings`) and `rasterize_meshes` — supplied here as the
function argument `rasterize_meshes`, since it is an external import —
is called once, its five outputs packaged unchanged into `Fragments`.
The inner `none` branch for the camera is unreachable: when no camera is
available `transform` has already raised. -/
def MeshRasterizer.forward {α : Type} (self : MeshRasterizer) (meshes_world : Meshes)
    (kw : Kwargs)
    (rasterize_meshes : Meshes → RasterizeArgs → α × α × α × α × α) :
    Except RasterError (Fragments α) :=
  match self.transform meshes_world kw with
  | .error e => .error e
  | .ok meshes_proj =>
    let raster_settings := self.getRasterSettings kw
    match self.getCameras kw with
    | none => .error .missingCameras
    | some cameras =>
      let args := resolveSettings raster_settings cameras
      let (pix_to_face, zbuf, bary_coords, dists, back_faces) :=
        rasterize_meshes meshes_proj args
      .ok { pix_to_face := pix_to_face, zbuf := zbuf, bary_coords := bary_coords,
            dists := dists, back_faces := back_faces }

/-- The `let (a, b, c, d, e) := …` destructuring of the five outputs of
`rasterize_meshes`, as a function: package a quintuple into `Fragments`. -/
def packFragments {α : Type} (t : α × α × α × α × α) : Fragments α :=
  { pix_to_face := t.1, zbuf := t.2.1, bary_coords := t.2.2.1,
    dists := t.2.2.2.1, back_faces := t.2.2.2.2 }

/-- The whole per-vertex effect of `transform`: NDC x and y of the
projected view-space point, view-space z. -/
def transformVertex (cam : Camera) (v : Vec3) : Vec3 :=
  spliceZ (cam.ndcTransform (cam.projection (cam.worldToView v))) (cam.worldToView v)

/-- A concrete camera for witnesses: shift z by 1 in view space, double x
in the projection, shift x by 3 in the NDC transform. -/
def camW : Camera :=
  { count := 1
    worldToView := fun v => { x := v.x, y := v.y, z := v.z + 1 }
    projection := fun v => { x := 2 * v.x, y := v.y, z := v.z }
    ndcTransform := fun v => { x := v.x + 3, y := v.y, z := v.z }
    is_perspective := true
    znear := .scalar 1 }

/-- A camera bundle with two cameras (for count-mismatch witnesses). -/
def camMismatch : Camera := { camW with count := 2 }

/-- An orthographic camera. -/
def camOrtho : Camera := { camW with is_perspective := false }

/-- A camera whose `get_znear()` returns a per-batch tensor. -/
def camTensor : Camera := { camW with znear := .tensor 4 [3, 5] }

/-- A camera whose `get_znear()` returns `None`. -/
def camNoZnear : Camera := { camW with znear := .noneVal }

/-- Default settings: every tri-state field unset. -/
def rsDefault : RasterizationSettings :=
  { image_size := .inl 256, blur_radius := 0, faces_per_pixel := 1,
    bin_size := none, max_faces_per_bin := none, perspective_correct := none,
    clip_barycentric_coords := none, cull_backfaces := false,
    z_clip_value := none, cull_to_frustum := false }

/-- Settings with every tri-state field explicitly set. -/
def rsExplicit : RasterizationSettings :=
  { rsDefault with
    perspective_correct := some false,
    clip_barycentric_coords := some true, z_clip_value := some (3 / 2) }

/-- A one-mesh batch with a single vertex and a single face. -/
def meshesOne : Meshes :=
  { verts := [[{ x := 1, y := 2, z := 5 }]], faces := [[(0, 1, 2)]] }

/-- A trivial downstream rasterizer for witnesses. -/
def rastZero : Meshes → RasterizeArgs → Nat × Nat × Nat × Nat × Nat :=
  fun _ _ => (0, 0, 0, 0, 0)

lemma zipWith_map_same {α β γ : Type} (f : β → β → γ) (g h : α → β) (l : List α) :
    List.zipWith f (l.map g) (l.map h) = l.map (fun a => f (g a) (h a)) := by
  induction l with
  | nil => rfl
  | cons a t ih => simp [ih]

lemma zipWith_map_fst {α β γ : Type} (f : β → α → γ) (g : α → β) (l : List α) :
    List.zipWith f (l.map g) l = l.map (fun a => f (g a) a) := by
  induction l with
  | nil => rfl
  | cons a t ih => simp [ih]

/-- On the success path, `transform` maps `transformVertex` over the
padded vertices and rebuilds the mesh with `update_padded`. -/
lemma transform_eq_of_cam (self : MeshRasterizer) (meshes_world : Meshes) (kw : Kwargs)
    (cam : Camera) (hcam : self.getCameras kw = some cam)
    (hn : ¬(cam.count ≠ 1 ∧ cam.count ≠ meshes_world.len)) :
    self.transform meshes_world kw =
      .ok (meshes_world.update_padded
        (meshes_world.verts.map (List.map (transformVertex cam)))) := by
  unfold MeshRasterizer.transform
  rw [hcam]
  simp only [if_neg hn]
  congr 2
  rw [Meshes.verts_padded]
  rw [show ((meshes_world.verts.map (List.map cam.worldToView)).map
        (List.map (cam.ndcTransform ∘ cam.projection)))
      = meshes_world.verts.map
          (fun r => (r.map cam.worldToView).map (cam.ndcTransform ∘ cam.projection)) from
    List.map_map _ _ _]
  rw [zipWith_map_same (List.zipWith spliceZ)
    (fun r => (r.map cam.worldToView).map (cam.ndcTransform ∘ cam.projection))
    (List.map cam.worldToView) meshes_world.verts]
  refine List.map_congr_left (fun r _ => ?_)
  rw [zipWith_map_fst spliceZ (cam.ndcTransform ∘ cam.projection) (r.map cam.worldToView)]
  simp [transformVertex, List.map_map, Function.comp]

/-- Inversion for a successful `transform`. -/
lemma transform_ok_elim (self : MeshRasterizer) (meshes_world : Meshes) (kw : Kwargs)
    (mp : Meshes) (h : self.transform meshes_world kw = .ok mp) :
    ∃ cam, self.getCameras kw = some cam
      ∧ ¬(cam.count ≠ 1 ∧ cam.count ≠ meshes_world.len)
      ∧ mp = meshes_world.update_padded
          (meshes_world.verts.map (List.map (transformVertex cam))) := by
  cases hc : self.getCameras kw with
  | none =>
    unfold MeshRasterizer.transform at h
    rw [hc] at h
    exact absurd h (by simp)
  | some cam =>
    by_cases hn : cam.count ≠ 1 ∧ cam.count ≠ meshes_world.len
    · unfold MeshRasterizer.transform at h
      rw [hc] at h
      simp only [if_pos hn] at h
      exact Except.noConfusion h
    · refine ⟨cam, rfl, hn, ?_⟩
      rw [transform_eq_of_cam self meshes_world kw cam hc hn] at h
      exact (Except.ok.inj h).symm

/-- C1: For every mesh batch and camera bundle accepted by
`MeshRasterizer.transform`, each vertex of the returned mesh has z equal
to that vertex's view-space z (the world-to-view transform alone), and
its x and y are the composed projection-then-NDC transform applied to
the view-space point. -/
theorem transform_keeps_view_z (self : MeshRasterizer) (meshes_world : Meshes)
    (kw : Kwargs) (cam : Camera) (hcam : self.getCameras kw = some cam)
    (mp : Meshes) (hok : self.transform meshes_world kw = .ok mp)
    (i j : Nat) (v : Vec3)
    (hv : meshes_world.verts[i]?.bind (fun r => r[j]?) = some v) :
    mp.verts[i]?.bind (fun r => r[j]?) =
      some { x := (cam.ndcTransform (cam.projection (cam.worldToView v))).x,
             y := (cam.ndcTransform (cam.projection (cam.worldToView v))).y,
             z := (cam.worldToView v).z } := by
  obtain ⟨cam2, hc2, _, hmp⟩ := transform_ok_elim self meshes_world kw mp hok
  rw [hcam] at hc2
  obtain rfl : cam2 = cam := (Option.some.inj hc2).symm
  subst hmp
  cases hrow : meshes_world.verts[i]? with
  | none => rw [hrow] at hv; exact absurd hv (by simp)
  | some row =>
    rw [hrow] at hv
    replace hv : row[j]? = some v := hv
    simp [Meshes.update_padded, List.getElem?_map, hrow, hv, transformVertex, spliceZ]

/-- C1 witness: a concrete one-vertex mesh and a concrete camera. -/
theorem transform_keeps_view_z_witness :
    ∃ mp, MeshRasterizer.transform
        { cameras := some camW, raster_settings := rsDefault } meshesOne Kwargs.empty
        = .ok mp
      ∧ mp.verts[0]?.bind (fun r => r[0]?) = some { x := 5, y := 2, z := 6 } := by
  have hok : MeshRasterizer.transform
      { cameras := some camW, raster_settings := rsDefault } meshesOne Kwargs.empty
      = .ok { verts := [[{ x := 5, y := 2, z := 6 }]], faces := [[(0, 1, 2)]] } := by
    rw [transform_eq_of_cam { cameras := some camW, raster_settings := rsDefault }
      meshesOne Kwargs.empty camW rfl (by decide)]
    norm_num [meshesOne, Meshes.update_padded, transformVertex, spliceZ, camW]
  refine ⟨_, hok, ?_⟩
  have h := transform_keeps_view_z
    { cameras := some camW, raster_settings := rsDefault } meshesOne Kwargs.empty
    camW rfl _ hok 0 0 { x := 1, y := 2, z := 5 } (by decide)
  rw [h]
  norm_num [camW]

/-- An identity camera (all three transforms are the identity). -/
def camId : Camera :=
  { count := 1, worldToView := id, projection := id, ndcTransform := id,
    is_perspective := true, znear := .scalar 1 }

lemma transform_of_no_camera (self : MeshRasterizer) (meshes_world : Meshes)
    (kw : Kwargs) (h : self.getCameras kw = none) :
    self.transform meshes_world kw = .error .missingCameras := by
  unfold MeshRasterizer.transform
  rw [h]

lemma forward_of_transform_error {α : Type} (self : MeshRasterizer)
    (meshes_world : Meshes) (kw : Kwargs)
    (rast : Meshes → RasterizeArgs → α × α × α × α × α) (e : RasterError)
    (h : self.transform meshes_world kw = .error e) :
    self.forward meshes_world kw rast = .error e := by
  unfold MeshRasterizer.forward
  rw [h]

/-- `forward` is `transform` followed, on success, by one call to the
downstream rasterizer at the resolved settings, packaged into
`Fragments`. -/
lemma forward_eq_map {α : Type} (self : MeshRasterizer) (meshes_world : Meshes)
    (kw : Kwargs) (rast : Meshes → RasterizeArgs → α × α × α × α × α)
    (cam : Camera) (hcam : self.getCameras kw = some cam) :
    self.forward meshes_world kw rast =
      (self.transform meshes_world kw).map
        (fun mp => packFragments
          (rast mp (resolveSettings (self.getRasterSettings kw) cam))) := by
  unfold MeshRasterizer.forward
  cases h : self.transform meshes_world kw with
  | error e => rfl
  | ok mp =>
    rw [hcam]
    simp only [Except.map]
    obtain ⟨p, z, b, d, bf⟩ := rast mp (resolveSettings (self.getRasterSettings kw) cam)
    rfl

/-- C2: Given that a camera bundle is supplied, `transform` raises
exactly when the camera count is neither 1 nor the number of meshes, and
in that case `forward` returns the same error for every downstream
rasterizer — `rasterize_meshes` is never consulted and no fragment
output is produced. -/
theorem transform_camera_count_error {α : Type} (self : MeshRasterizer)
    (meshes_world : Meshes) (kw : Kwargs) (cam : Camera)
    (rast : Meshes → RasterizeArgs → α × α × α × α × α)
    (hcam : self.getCameras kw = some cam) :
    ((∃ e, self.transform meshes_world kw = .error e) ↔
      (cam.count ≠ 1 ∧ cam.count ≠ meshes_world.len))
    ∧ (cam.count ≠ 1 ∧ cam.count ≠ meshes_world.len →
        self.forward meshes_world kw rast =
          .error (.wrongNumberOfCameras cam.count meshes_world.len)) := by
  by_cases hn : cam.count ≠ 1 ∧ cam.count ≠ meshes_world.len
  · have ht : self.transform meshes_world kw =
        .error (.wrongNumberOfCameras cam.count meshes_world.len) := by
      unfold MeshRasterizer.transform
      rw [hcam]
      simp only [if_pos hn]
    exact ⟨⟨fun _ => hn, fun _ => ⟨_, ht⟩⟩,
      fun _ => forward_of_transform_error self meshes_world kw rast _ ht⟩
  · have ht := transform_eq_of_cam self meshes_world kw cam hcam hn
    refine ⟨⟨fun he => ?_, fun hc => absurd hc hn⟩, fun hc => absurd hc hn⟩
    obtain ⟨e, he⟩ := he
    rw [ht] at he
    exact Except.noConfusion he

/-- C2 witness: two cameras against a one-mesh batch. -/
theorem transform_camera_count_error_witness :
    MeshRasterizer.forward { cameras := some camMismatch, raster_settings := rsDefault }
      meshesOne Kwargs.empty rastZero = .error (.wrongNumberOfCameras 2 1) :=
  (transform_camera_count_error
    { cameras := some camMismatch, raster_settings := rsDefault }
    meshesOne Kwargs.empty camMismatch rastZero rfl).2 (by decide)

/-- C6: When no camera was supplied at construction nor in the call's
keyword arguments, `transform` and `forward` report a `ValueError`
synchronously; and `forward` fails exactly when `transform` fails — the
settings-resolution part of `forward` never introduces a failure of its
own. -/
theorem forward_requires_camera {α : Type} (self : MeshRasterizer)
    (meshes_world : Meshes) (kw : Kwargs)
    (rast : Meshes → RasterizeArgs → α × α × α × α × α) :
    (self.cameras = none → (kw.cameras = none ∨ kw.cameras = some none) →
      self.transform meshes_world kw = .error .missingCameras
        ∧ self.forward meshes_world kw rast = .error .missingCameras)
    ∧ (∀ e, self.forward meshes_world kw rast = .error e ↔
        self.transform meshes_world kw = .error e) := by
  constructor
  · intro h1 h2
    have hno : self.getCameras kw = none := by
      cases h2 with
      | inl h => simp [MeshRasterizer.getCameras, h, h1]
      | inr h => simp [MeshRasterizer.getCameras, h]
    exact ⟨transform_of_no_camera self meshes_world kw hno,
      forward_of_transform_error self meshes_world kw rast _
        (transform_of_no_camera self meshes_world kw hno)⟩
  · intro e
    constructor
    · intro hf
      cases h : self.transform meshes_world kw with
      | error e2 =>
        have := forward_of_transform_error self meshes_world kw rast e2 h
        rw [this] at hf
        have he : e2 = e := by injection hf
        rw [he]
      | ok mp =>
        obtain ⟨cam, hc, -, -⟩ := transform_ok_elim self meshes_world kw mp h
        rw [forward_eq_map self meshes_world kw rast cam hc, h] at hf
        exact Except.noConfusion hf
    · intro ht
      exact forward_of_transform_error self meshes_world kw rast e ht

/-- C6 witness: no camera at construction, none in kwargs. -/
theorem forward_requires_camera_witness :
    MeshRasterizer.transform { cameras := none, raster_settings := rsDefault }
      meshesOne Kwargs.empty = .error .missingCameras
    ∧ MeshRasterizer.forward { cameras := none, raster_settings := rsDefault }
        meshesOne Kwargs.empty rastZero = .error .missingCameras :=
  (forward_requires_camera { cameras := none, raster_settings := rsDefault }
    meshesOne Kwargs.empty rastZero).1 rfl (Or.inl rfl)

/-- C7: `transform` does not mutate its input (the embedding is pure and
the input batch appears unchanged on the right-hand sides): the returned
mesh is rebuilt with `update_padded` from a freshly mapped
vertex-position array and carries the input's face topology unchanged. -/
theorem transform_preserves_topology (self : MeshRasterizer) (meshes_world : Meshes)
    (kw : Kwargs) (cam : Camera) (mp : Meshes)
    (hcam : self.getCameras kw = some cam)
    (hok : self.transform meshes_world kw = .ok mp) :
    mp.faces = meshes_world.faces
    ∧ mp = meshes_world.update_padded
        (meshes_world.verts.map (List.map (transformVertex cam))) := by
  obtain ⟨cam2, hc2, -, hmp⟩ := transform_ok_elim self meshes_world kw mp hok
  rw [hcam] at hc2
  obtain rfl : cam2 = cam := (Option.some.inj hc2).symm
  exact ⟨by rw [hmp]; rfl, hmp⟩

/-- C7 witness: the identity camera on the one-vertex batch. -/
theorem transform_preserves_topology_witness :
    ∃ mp, MeshRasterizer.transform { cameras := some camId, raster_settings := rsDefault }
        meshesOne Kwargs.empty = .ok mp
      ∧ mp.faces = meshesOne.faces := by
  refine ⟨_, rfl, ?_⟩
  exact (transform_preserves_topology
    { cameras := some camId, raster_settings := rsDefault }
    meshesOne Kwargs.empty camId _ rfl rfl).1

/-- C10: `forward` runs the geometry transform (and with it the
camera-presence and camera-count validation) before any settings
resolution: even when every tri-state settings field is explicitly set,
a missing or count-mismatched camera still raises. -/
theorem forward_validates_camera_before_settings {α : Type} (self : MeshRasterizer)
    (meshes_world : Meshes) (kw : Kwargs)
    (rast : Meshes → RasterizeArgs → α × α × α × α × α)
    (b c : Bool) (z : ℚ)
    (hb : (self.getRasterSettings kw).perspective_correct = some b)
    (hcb : (self.getRasterSettings kw).clip_barycentric_coords = some c)
    (hz : (self.getRasterSettings kw).z_clip_value = some z) :
    (self.getCameras kw = none →
      self.forward meshes_world kw rast = .error .missingCameras)
    ∧ (∀ cam, self.getCameras kw = some cam → cam.count ≠ 1 →
        cam.count ≠ meshes_world.len →
        self.forward meshes_world kw rast =
          .error (.wrongNumberOfCameras cam.count meshes_world.len)) := by
  constructor
  · intro h
    exact forward_of_transform_error self meshes_world kw rast _
      (transform_of_no_camera self meshes_world kw h)
  · intro cam hcam h1 h2
    refine forward_of_transform_error self meshes_world kw rast _ ?_
    unfold MeshRasterizer.transform
    rw [hcam]
    simp only [if_pos (And.intro h1 h2)]

/-- C10 witness: all tri-state fields set, camera missing. -/
theorem forward_validates_camera_before_settings_witness :
    MeshRasterizer.forward { cameras := none, raster_settings := rsExplicit }
      meshesOne Kwargs.empty rastZero = .error .missingCameras :=
  (forward_validates_camera_before_settings
    { cameras := none, raster_settings := rsExplicit }
    meshesOne Kwargs.empty rastZero false true (3 / 2) rfl rfl rfl).1 rfl

/-- C3: In every `forward` call the flag passed to rasterization is the
explicit `clip_barycentric_coords` setting when set, else
`blur_radius > 0`. -/
theorem forward_resolves_clip_barycentric {α : Type} (self : MeshRasterizer)
    (meshes_world : Meshes) (kw : Kwargs) (cam : Camera)
    (rast : Meshes → RasterizeArgs → α × α × α × α × α)
    (rs : RasterizationSettings)
    (hcam : self.getCameras kw = some cam)
    (hrs : self.getRasterSettings kw = rs) :
    (self.forward meshes_world kw rast =
      (self.transform meshes_world kw).map
        (fun mp => packFragments (rast mp (resolveSettings rs cam))))
    ∧ (rs.clip_barycentric_coords = none →
        (resolveSettings rs cam).clip_barycentric_coords = decide (rs.blur_radius > 0))
    ∧ (∀ b, rs.clip_barycentric_coords = some b →
        (resolveSettings rs cam).clip_barycentric_coords = b) := by
  subst hrs
  refine ⟨forward_eq_map self meshes_world kw rast cam hcam, ?_, ?_⟩
  · intro h
    simp [resolveSettings, resolveClipBarycentricCoords, h]
  · intro b h
    simp [resolveSettings, resolveClipBarycentricCoords, h]

/-- C3 witness: unset flag and zero blur radius resolve to `false`. -/
theorem forward_resolves_clip_barycentric_witness :
    (resolveSettings rsDefault camW).clip_barycentric_coords = false := by
  have h := (forward_resolves_clip_barycentric
    { cameras := some camW, raster_settings := rsDefault }
    meshesOne Kwargs.empty camW rastZero rsDefault rfl rfl).2.1 rfl
  rw [h]
  norm_num [rsDefault]

/-- C4: In every `forward` call the perspective-correction flag passed
to rasterization is the explicit `perspective_correct` setting when set,
else the camera's own `is_perspective()` flag. -/
theorem forward_resolves_perspective {α : Type} (self : MeshRasterizer)
    (meshes_world : Meshes) (kw : Kwargs) (cam : Camera)
    (rast : Meshes → RasterizeArgs → α × α × α × α × α)
    (rs : RasterizationSettings)
    (hcam : self.getCameras kw = some cam)
    (hrs : self.getRasterSettings kw = rs) :
    (self.forward meshes_world kw rast =
      (self.transform meshes_world kw).map
        (fun mp => packFragments (rast mp (resolveSettings rs cam))))
    ∧ (rs.perspective_correct = none →
        (resolveSettings rs cam).perspective_correct = cam.is_perspective)
    ∧ (∀ b, rs.perspective_correct = some b →
        (resolveSettings rs cam).perspective_correct = b) := by
  subst hrs
  refine ⟨forward_eq_map self meshes_world kw rast cam hcam, ?_, ?_⟩
  · intro h
    simp [resolveSettings, resolvePerspectiveCorrect, h]
  · intro b h
    simp [resolveSettings, resolvePerspectiveCorrect, h]

/-- C4 witness: unset flag resolves to the camera's perspective flag. -/
theorem forward_resolves_perspective_witness :
    (resolveSettings rsDefault camW).perspective_correct = true :=
  (forward_resolves_perspective
    { cameras := some camW, raster_settings := rsDefault }
    meshesOne Kwargs.empty camW rastZero rsDefault rfl rfl).2.1 rfl

/-- C5: In every `forward` call the near-plane clip depth passed to
rasterization is the explicit `z_clip_value` when set; else `None` when
the resolved projection is orthographic or `znear` is unavailable; else
half of the camera's (minimum) near-plane distance. -/
theorem forward_resolves_z_clip {α : Type} (self : MeshRasterizer)
    (meshes_world : Meshes) (kw : Kwargs) (cam : Camera)
    (rast : Meshes → RasterizeArgs → α × α × α × α × α)
    (rs : RasterizationSettings)
    (hcam : self.getCameras kw = some cam)
    (hrs : self.getRasterSettings kw = rs) :
    (self.forward meshes_world kw rast =
      (self.transform meshes_world kw).map
        (fun mp => packFragments (rast mp (resolveSettings rs cam))))
    ∧ (∀ z, rs.z_clip_value = some z →
        (resolveSettings rs cam).z_clip_value = some z)
    ∧ (rs.z_clip_value = none → (resolveSettings rs cam).perspective_correct = false →
        (resolveSettings rs cam).z_clip_value = none)
    ∧ (rs.z_clip_value = none → cam.znear = .noneVal →
        (resolveSettings rs cam).z_clip_value = none)
    ∧ (∀ q, rs.z_clip_value = none →
        (resolveSettings rs cam).perspective_correct = true →
        cam.znear = .scalar q →
        (resolveSettings rs cam).z_clip_value = some (q / 2))
    ∧ (∀ hd tl, rs.z_clip_value = none →
        (resolveSettings rs cam).perspective_correct = true →
        cam.znear = .tensor hd tl →
        (resolveSettings rs cam).z_clip_value =
          some (ZNearVal.tensorMin hd tl / 2)) := by
  subst hrs
  refine ⟨forward_eq_map self meshes_world kw rast cam hcam, ?_, ?_, ?_, ?_, ?_⟩
  · intro z h
    simp [resolveSettings, resolveZClip, h]
  · intro h hp
    replace hp : resolvePerspectiveCorrect (self.getRasterSettings kw) cam = false := hp
    cases hz : cam.znear <;>
      simp [resolveSettings, resolveZClip, h, hp, hz]
  · intro h hz
    simp [resolveSettings, resolveZClip, h, hz]
  · intro q h hp hz
    replace hp : resolvePerspectiveCorrect (self.getRasterSettings kw) cam = true := hp
    simp [resolveSettings, resolveZClip, h, hp, hz]
  · intro hd tl h hp hz
    replace hp : resolvePerspectiveCorrect (self.getRasterSettings kw) cam = true := hp
    simp [resolveSettings, resolveZClip, h, hp, hz]

/-- C5 witness: perspective camera with scalar `znear = 1` and unset
`z_clip_value` resolves to clip depth `1 / 2`. -/
theorem forward_resolves_z_clip_witness :
    (resolveSettings rsDefault camW).z_clip_value = some (1 / 2) :=
  (forward_resolves_z_clip
    { cameras := some camW, raster_settings := rsDefault }
    meshesOne Kwargs.empty camW rastZero rsDefault rfl rfl).2.2.2.2.1 1 rfl rfl rfl

lemma foldl_min_spec (hd : ℚ) (tl : List ℚ) :
    tl.foldl min hd ∈ hd :: tl ∧ ∀ q ∈ hd :: tl, tl.foldl min hd ≤ q := by
  induction tl generalizing hd with
  | nil => simp
  | cons a t ih =>
    obtain ⟨hmem, hle⟩ := ih (min hd a)
    constructor
    · rw [List.foldl_cons]
      rcases List.mem_cons.mp hmem with h | h
      · rcases min_choice hd a with hm | hm
        · rw [h, hm]
          exact List.mem_cons_self _ _
        · rw [h, hm]
          exact List.mem_cons_of_mem _ (List.mem_cons_self _ _)
      · exact List.mem_cons_of_mem _ (List.mem_cons_of_mem _ h)
    · intro q hq
      rw [List.foldl_cons]
      have hmin : t.foldl min (min hd a) ≤ min hd a := hle _ (List.mem_cons_self _ _)
      rcases List.mem_cons.mp hq with rfl | hq2
      · exact le_trans hmin (min_le_left _ _)
      · rcases List.mem_cons.mp hq2 with rfl | hq3
        · exact le_trans hmin (min_le_right _ _)
        · exact hle _ (List.mem_cons_of_mem _ hq3)

/-- C9: When `znear` is a per-batch tensor and `z_clip_value` is unset
(and the resolved projection is perspective, so a clip depth is inferred
at all), the single clip depth used for the whole batch is half of the
minimum `znear` over all batch elements. -/
theorem forward_tensor_znear_uses_min {α : Type} (self : MeshRasterizer)
    (meshes_world : Meshes) (kw : Kwargs) (cam : Camera)
    (rast : Meshes → RasterizeArgs → α × α × α × α × α)
    (rs : RasterizationSettings) (hd : ℚ) (tl : List ℚ)
    (hcam : self.getCameras kw = some cam)
    (hrs : self.getRasterSettings kw = rs)
    (hz : rs.z_clip_value = none)
    (ht : cam.znear = .tensor hd tl)
    (hp : (resolveSettings rs cam).perspective_correct = true) :
    (self.forward meshes_world kw rast =
      (self.transform meshes_world kw).map
        (fun mp => packFragments (rast mp (resolveSettings rs cam))))
    ∧ ∃ m, (resolveSettings rs cam).z_clip_value = some (m / 2)
        ∧ m ∈ hd :: tl ∧ ∀ q ∈ hd :: tl, m ≤ q := by
  subst hrs
  refine ⟨forward_eq_map self meshes_world kw rast cam hcam,
    ZNearVal.tensorMin hd tl, ?_, ?_, ?_⟩
  · replace hp : resolvePerspectiveCorrect (self.getRasterSettings kw) cam = true := hp
    simp [resolveSettings, resolveZClip, hz, hp, ht]
  · exact (foldl_min_spec hd tl).1
  · exact (foldl_min_spec hd tl).2

/-- C9 witness: tensor `znear = [4, 3, 5]` yields clip depth `3 / 2`. -/
theorem forward_tensor_znear_uses_min_witness :
    ∃ m, (resolveSettings rsDefault camTensor).z_clip_value = some (m / 2)
      ∧ m ∈ (4 : ℚ) :: [3, 5] ∧ ∀ q ∈ (4 : ℚ) :: [3, 5], m ≤ q :=
  (forward_tensor_znear_uses_min
    { cameras := some camTensor, raster_settings := rsDefault }
    meshesOne Kwargs.empty camTensor rastZero rsDefault 4 [3, 5]
    rfl rfl rfl rfl rfl).2

/-- C8: In every successful `forward` call the tri-state fields are
resolved once into a single argument record derived from the unchanged
stored settings and the camera; that record carries every other settings
field through unmodified, and the five outputs of the downstream
rasterization call are packaged unchanged into `Fragments`. -/
theorem forward_packages_resolved_settings {α : Type} (self : MeshRasterizer)
    (meshes_world : Meshes) (kw : Kwargs) (cam : Camera)
    (rast : Meshes → RasterizeArgs → α × α × α × α × α)
    (rs : RasterizationSettings)
    (hcam : self.getCameras kw = some cam)
    (hrs : self.getRasterSettings kw = rs) :
    (∀ mp, self.transform meshes_world kw = .ok mp →
      self.forward meshes_world kw rast =
        .ok (packFragments (rast mp (resolveSettings rs cam))))
    ∧ (resolveSettings rs cam).image_size = rs.image_size
    ∧ (resolveSettings rs cam).blur_radius = rs.blur_radius
    ∧ (resolveSettings rs cam).faces_per_pixel = rs.faces_per_pixel
    ∧ (resolveSettings rs cam).bin_size = rs.bin_size
    ∧ (resolveSettings rs cam).max_faces_per_bin = rs.max_faces_per_bin
    ∧ (resolveSettings rs cam).cull_backfaces = rs.cull_backfaces
    ∧ (resolveSettings rs cam).cull_to_frustum = rs.cull_to_frustum
    ∧ (resolveSettings rs cam).clip_barycentric_coords = resolveClipBarycentricCoords rs
    ∧ (resolveSettings rs cam).perspective_correct = resolvePerspectiveCorrect rs cam
    ∧ (resolveSettings rs cam).z_clip_value =
        resolveZClip rs cam (resolvePerspectiveCorrect rs cam) := by
  subst hrs
  refine ⟨?_, rfl, rfl, rfl, rfl, rfl, rfl, rfl, rfl, rfl, rfl⟩
  intro mp h
  rw [forward_eq_map self meshes_world kw rast cam hcam, h]
  rfl

/-- C8 witness: the identity camera, default settings, and a trivial
rasterizer returning zeros. -/
theorem forward_packages_resolved_settings_witness :
    MeshRasterizer.forward { cameras := some camId, raster_settings := rsDefault }
      meshesOne Kwargs.empty rastZero =
      .ok { pix_to_face := 0, zbuf := 0, bary_coords := 0, dists := 0, back_faces := 0 } :=
  (forward_packages_resolved_settings
    { cameras := some camId, raster_settings := rsDefault }
    meshesOne Kwargs.empty camId rastZero rsDefault rfl rfl).1 _ rfl

end Pytorch3d
